import Mathlib

/-!
Verification development for the forest-runner benchmarking engine.

The Go sources are shallowly embedded: the engine configuration, the Result
record, the streaming response reader (processStream), the hardware guard
monitor decision (monitorLoading), the retry loops of StreamInference and
Inference, and the scheduler (Run / runForURL) are translated into pure Lean
functions.  External effects (HTTP requests, placement polls, clock reads,
the guard goroutine firing) are supplied as explicit environment values, one
per retry iteration or poll, so that every control-flow decision of the Go
code is mirrored by a decision of the Lean function on the same data.
-/

namespace ForestRunner

/-- Inference option set: the extraConfig map passed to the generate
endpoint, modelled as an association list of option name to integer value. -/
abbrev InferCfg := List (String × Int)

/-- Configuration fields consumed by the engine (config.Config).  Durations
are nanoseconds, sizes are bytes: Go int64 and time.Duration become Int. -/
structure Config where
  URLs : List String := []
  Prompt : String := ""
  MaxRetries : Int := 0
  RetryDelay : Int := 0
  LoadTimeout : Int := 0
  StreamTimeout : Int := 0
  KeepAlive : String := ""
  CPUOnlyAllowed : Bool := false
  GPUOnly : Bool := false
  Exclude : List String := []
  Models : List String := []
  InferConfigs : List InferCfg := []
  Concurrency : Int := 0
deriving Repr, DecidableEq

/-- Result record (model.Result) as populated by the engine and the runner.
Every field defaults to its Go zero value, so the Go literal Result{}
is written as an empty structure instance.  VRAMPercentage is the float64
expression float64(vram) / float64(size) * 100, modelled as a rational. -/
structure Result where
  Model : String := ""
  URL : String := ""
  Config : InferCfg := []
  Timestamp : Int := 0
  Duration : Int := 0
  TotalDuration : Int := 0
  LoadDuration : Int := 0
  PromptEvalCount : Int := 0
  PromptEvalDuration : Int := 0
  EvalCount : Int := 0
  EvalDuration : Int := 0
  TokensGenerated : Int := 0
  TokensReturned : Int := 0
  Response : String := ""
  MemoryUsage : Int := 0
  VRAMUsage : Int := 0
  VRAMPercentage : Rat := 0
  Error : String := ""
deriving Repr, DecidableEq

/-! ## Streaming response reader -/

/-- Classification of one scanned line of the streaming response body:
an empty line, a line on which json.Unmarshal fails (garbage), or a decoded
chunk carrying the response fragment and the done flag. -/
inductive StreamLine where
  | empty : StreamLine
  | garbage : StreamLine
  | chunk (response : String) (done : Bool) : StreamLine
deriving Repr, DecidableEq

/-- How scanning terminates when no done chunk stopped it early: the body
closed normally (eof) or the scanner reported an error. -/
inductive ScanEnd where
  | eof : ScanEnd
  | scanFail : ScanEnd
deriving Repr, DecidableEq

/-- Embedding of Engine.processStream: scan lines in order, skip empty lines
and lines that fail to decode, and stop with true at the first chunk whose
done flag is set.  Reaching the end of the input yields false both on normal
body close (gotDone is still false) and on a scanner error. -/
def processStream : List StreamLine → ScanEnd → Bool
  | [], ScanEnd.eof => false
  | [], ScanEnd.scanFail => false
  | StreamLine.empty :: rest, e => processStream rest e
  | StreamLine.garbage :: rest, e => processStream rest e
  | StreamLine.chunk _ done :: rest, e =>
      if done then true else processStream rest e

/-! ## Token splitting (strings.Split on a single space) -/

/-- Splitting a character list at every occurrence of the separator, the
behaviour of strings.Split with a one-character separator: the result always
has at least one (possibly empty) piece. -/
def splitGo (sep : Char) : List Char → List (List Char)
  | [] => [[]]
  | c :: cs =>
    if c = sep then [] :: splitGo sep cs
    else
      match splitGo sep cs with
      | [] => [[c]]
      | p :: ps => (c :: p) :: ps

/-- TokensReturned computation in Engine.Inference:
len(strings.Split(response, " ")). -/
def tokensReturned (response : String) : Int :=
  ((splitGo ' ' response.data).length : Int)

theorem splitGo_length_pos (sep : Char) (l : List Char) :
    1 ≤ (splitGo sep l).length := by
  induction l with
  | nil => simp [splitGo]
  | cons c cs ih =>
    by_cases h : c = sep
    · simp [splitGo, h]
    · simp only [splitGo, if_neg h]
      cases splitGo sep cs with
      | nil => simp
      | cons p ps => simp

theorem tokensReturned_ge_one (s : String) : 1 ≤ tokensReturned s := by
  have h := splitGo_length_pos ' ' s.data
  unfold tokensReturned
  exact_mod_cast h

/-! ## Hardware guard monitor -/

/-- Outcome of one GetRunningModelInfo poll from the monitor: the request
failed, or it returned the pair (size, size_vram) for the model (both zero
when the model is not resident). -/
inductive PollResult where
  | pollErr : PollResult
  | ok (size sizeVRAM : Int) : PollResult
deriving Repr, DecidableEq

/-- Action the monitor takes on one tick: keep polling, or deliver an abort
reason through the single-slot channel and cancel the shared context. -/
inductive MonitorAction where
  | keepPolling : MonitorAction
  | abortAttempt (reason : String) : MonitorAction
deriving Repr, DecidableEq

/-- Abort reason emitted when the model is fully resident in system memory
while cpu_only_allowed is false. -/
def cpuAbortMsg : String :=
  "ABORT: Model loaded 100% on CPU (cpu_only_allowed=false)"

/-- Abort reason emitted when the model placement is split while gpu_only
is true. -/
def gpuAbortMsg : String :=
  "ABORT: Model is partially on CPU (gpu_only=true)"

/-- Embedding of one tick of Engine.monitorLoading: a failed poll and a
not-yet-resident model (size 0) are tolerated; a fully-CPU placement with
cpu_only_allowed=false aborts; a split placement with gpu_only=true aborts;
anything else keeps polling. -/
def monitorStep (cfg : Config) (p : PollResult) : MonitorAction :=
  match p with
  | PollResult.pollErr => MonitorAction.keepPolling
  | PollResult.ok size sizeVRAM =>
    if size == 0 then MonitorAction.keepPolling
    else if sizeVRAM == 0 && !cfg.CPUOnlyAllowed then
      MonitorAction.abortAttempt cpuAbortMsg
    else if decide (sizeVRAM < size) && cfg.GPUOnly then
      MonitorAction.abortAttempt gpuAbortMsg
    else MonitorAction.keepPolling

/-! ## Network error classification -/

/-- Substring occurrence test on character lists: the needle is a prefix of
some suffix of the haystack. -/
def containsList : List Char → List Char → Bool
  | hay, needle =>
    if needle.isPrefixOf hay then true
    else
      match hay with
      | [] => false
      | _ :: t => containsList t needle

/-- Case-sensitive substring test, the behaviour of strings.Contains. -/
def goContains (hay needle : String) : Bool :=
  containsList hay.data needle.data

/-- Error classification applied by StreamInference and Inference when
Client.Do fails: a message mentioning the header wait is reported as a load
timeout, anything else as a generic network or connection error. -/
def classifyNetErr (msg : String) : String :=
  if goContains msg "awaiting headers" then
    "Ollama Header Timeout (model loading?): " ++ msg
  else
    "Network/Connection Error: " ++ msg

/-! ## StreamInference retry loop -/

/-- Environment for one retry iteration of StreamInference. fireTop tells
whether the guard monitor delivers an abort reason into the channel before
the top-of-loop check of this iteration; fireDo tells whether it delivers
while the request is in flight (observed by the check that follows a
Client.Do failure, or left in the channel for the next iteration otherwise);
doResult is the outcome of Client.Do, a failure message or the scanned body. -/
structure StreamIter where
  fireTop : Option String := none
  fireDo : Option String := none
  doResult : Except String (List StreamLine × ScanEnd) := Except.error ""
deriving Repr

/-- Embedding of the retry loop of Engine.StreamInference.  The first
component of the state is the single-slot abort channel carried between
iterations, the second is lastErr.  The returned pair is the error value of
the Go function (none meaning a nil error) and the number of Client.Do
calls issued. -/
def streamLoop : Option String → Option String → List StreamIter →
    Option String × Nat
  | _, lastErr, [] => (lastErr, 0)
  | chan, _lastErr, it :: rest =>
    match (match chan with | some r => some r | none => it.fireTop) with
    | some r => (some r, 0)
    | none =>
      match it.doResult with
      | Except.error msg =>
        match it.fireDo with
        | some r => (some r, 1)
        | none =>
          let p := streamLoop none (some (classifyNetErr msg)) rest
          (p.1, p.2 + 1)
      | Except.ok (lines, e) =>
        if processStream lines e then (none, 1)
        else
          let p :=
            streamLoop it.fireDo (some "stream incomplete or failed to start") rest
          (p.1, p.2 + 1)

/-- Engine.StreamInference: run the retry loop for at most MaxRetries
iterations, starting with an empty channel and a nil lastErr. -/
def StreamInference (cfg : Config) (iters : List StreamIter) :
    Option String × Nat :=
  streamLoop none none (iters.take cfg.MaxRetries.toNat)

/-! ## Non-streaming Inference retry loop -/

/-- Fields of the decoded non-streaming generate response. -/
structure GenData where
  Response : String := ""
  TotalDuration : Int := 0
  LoadDuration : Int := 0
  PromptEvalCount : Int := 0
  PromptEvalDuration : Int := 0
  EvalCount : Int := 0
  EvalDuration : Int := 0
deriving Repr, DecidableEq

/-- Outcome of the HTTP exchange of one retry iteration of
Engine.Inference, as observed by its inner closure: Client.Do failed (with
the abort channel content at the following check), a non-200 status, a body
read failure, undecodable JSON, an API-level error field, or a decoded
success (elapsed is the wall-clock time measured by time.Since(start)). -/
inductive InferOutcome where
  | doErr (msg : String) (abortPending : Option String) : InferOutcome
  | badStatus (status body : String) : InferOutcome
  | readErr (msg : String) : InferOutcome
  | badJSON (msg bodyStr : String) : InferOutcome
  | apiErr (msg : String) : InferOutcome
  | success (data : GenData) (elapsed : Int) : InferOutcome
deriving Repr, DecidableEq

/-- Exit path of Engine.Inference: success, retries exhausted with the last
recorded error, or a guard abort propagated from the monitor. -/
inductive InferExit where
  | success : InferExit
  | exhausted (err : String) : InferExit
  | aborted (reason : String) : InferExit
deriving Repr, DecidableEq

/-- Result value built by the successful branch of Engine.Inference,
including the metrics derived after the inner closure returns. -/
def successResult (modelName baseURL : String) (extraConfig : InferCfg)
    (start : Int) (data : GenData) (elapsed : Int) : Result :=
  { Model := modelName
    URL := baseURL
    Config := extraConfig
    Timestamp := start
    Response := data.Response
    TotalDuration := data.TotalDuration
    LoadDuration := data.LoadDuration
    PromptEvalCount := data.PromptEvalCount
    PromptEvalDuration := data.PromptEvalDuration
    EvalCount := data.EvalCount
    EvalDuration := data.EvalDuration
    Duration := elapsed
    TokensGenerated := data.EvalCount
    TokensReturned := tokensReturned data.Response }

/-- Result value returned by Engine.Inference when the retry budget is
exhausted: the outer res populated at the top of the function, with only
the error field added. -/
def exhaustedResult (modelName baseURL : String) (extraConfig : InferCfg)
    (start : Int) (e : String) : Result :=
  { Model := modelName
    URL := baseURL
    Config := extraConfig
    Timestamp := start
    Error := e }

/-- Embedding of the retry loop of Engine.Inference.  Running out of
iterations with a nil lastErr dereferences a nil error in Go, modelled as
none; the guard-abort path returns the empty Result literal together with
the abort reason, exactly as the Go code does. -/
def inferLoop (modelName baseURL : String) (extraConfig : InferCfg)
    (start : Int) : Option String → List InferOutcome →
    Option (Result × InferExit)
  | lastErr, [] =>
    match lastErr with
    | some e =>
      some (exhaustedResult modelName baseURL extraConfig start e,
        InferExit.exhausted e)
    | none => none
  | _, o :: rest =>
    match o with
    | InferOutcome.doErr msg pending =>
      match pending with
      | some r => some (({} : Result), InferExit.aborted r)
      | none =>
        inferLoop modelName baseURL extraConfig start
          (some (classifyNetErr msg)) rest
    | InferOutcome.badStatus status body =>
      inferLoop modelName baseURL extraConfig start
        (some ("Ollama Server Error (" ++ status ++ "): " ++ body)) rest
    | InferOutcome.readErr msg =>
      inferLoop modelName baseURL extraConfig start
        (some ("failed to read response body: " ++ msg)) rest
    | InferOutcome.badJSON msg bodyStr =>
      inferLoop modelName baseURL extraConfig start
        (some ("Ollama returned invalid JSON: " ++ msg ++ " (Body: " ++
          bodyStr ++ ")")) rest
    | InferOutcome.apiErr msg =>
      inferLoop modelName baseURL extraConfig start
        (some ("Ollama API Error: " ++ msg)) rest
    | InferOutcome.success data elapsed =>
      some (successResult modelName baseURL extraConfig start data elapsed,
        InferExit.success)

/-- Engine.Inference: run the retry loop for at most MaxRetries iterations
with a nil initial lastErr. -/
def Inference (cfg : Config) (modelName baseURL : String)
    (extraConfig : InferCfg) (start : Int) (outcomes : List InferOutcome) :
    Option (Result × InferExit) :=
  inferLoop modelName baseURL extraConfig start none
    (outcomes.take cfg.MaxRetries.toNat)

/-! ## Per-attempt deadlines -/

/-- Timeout argument of the context.WithTimeout call in StreamInference,
which bounds both the request and the guard monitor launched with that
context. -/
def streamAttemptDeadline (cfg : Config) : Int :=
  cfg.LoadTimeout + cfg.StreamTimeout

/-- Timeout argument of the context.WithTimeout call in Inference, shared
by the request and the guard monitor of the iteration. -/
def inferAttemptDeadline (cfg : Config) : Int :=
  cfg.LoadTimeout + cfg.StreamTimeout

/-- Overall http.Client timeout installed by New (a safety net above the
per-attempt context deadline). -/
def clientTimeout (cfg : Config) : Int :=
  cfg.LoadTimeout + cfg.StreamTimeout * 2

/-! ## Exclusion filtering -/

/-- Lowercasing of a string at the character level, the strings.ToLower
step of the exclusion check. -/
def goToLower (s : String) : List Char :=
  s.data.map Char.toLower

/-- Case-insensitive substring test used by the exclusion filter:
strings.Contains(strings.ToLower(modelName), strings.ToLower(ex)). -/
def containsFold (modelName ex : String) : Bool :=
  containsList (goToLower modelName) (goToLower ex)

/-- First exclusion entry matching the model name, following the order of
the configured exclusion list (the loop in runForURL breaks at the first
match). -/
def findExclusion (exclude : List String) (modelName : String) :
    Option String :=
  exclude.find? (fun ex => containsFold modelName ex)

/-! ## Runner (runForURL) -/

/-- Observable actions of runForURL, in emission order: a skip notice for an
excluded model, the streaming health check of a model, the start of one
benchmark configuration, and a Result handed to the output writers. -/
inductive Event where
  | skip (modelName filter : String) : Event
  | healthCheck (modelName : String) : Event
  | benchmark (modelName : String) (cfg : InferCfg) : Event
  | write (res : Result) : Event
deriving Repr, DecidableEq

/-- Environment for one (model, option set) benchmark: the per-iteration
request outcomes consumed by Engine.Inference and the outcome of the
GetRunningModelInfo poll performed by runForURL after the attempt. -/
structure CfgRunEnv where
  outcomes : List InferOutcome := []
  psAfter : Except String (Int × Int) := Except.error ""
deriving Repr

/-- Post-attempt VRAM capture in runForURL: when the placement poll
succeeds with a positive total size, record memory usage, fast-memory usage
and the fast-memory percentage on the Result; otherwise leave it unchanged. -/
def applyPs (res : Result) (ps : Except String (Int × Int)) : Result :=
  match ps with
  | Except.error _ => res
  | Except.ok (size, vram) =>
    if 0 < size then
      { res with
        MemoryUsage := size
        VRAMUsage := vram
        VRAMPercentage := (vram : Rat) / (size : Rat) * 100 }
    else res

/-- Embedding of the inner configuration loop of runForURL: run each option
set through Engine.Inference; on success capture VRAM stats and write the
Result, then continue; on any error set the error text, capture VRAM stats,
write the partial Result and break out of the loop.  The none value marks
the nil-error dereference reachable in Engine.Inference. -/
def runConfigs (cfg : Config) (url modelName : String) (start : Int) :
    List (InferCfg × CfgRunEnv) → Option (List Event)
  | [] => some []
  | (ic, env) :: rest =>
    match Inference cfg modelName url ic start env.outcomes with
    | none => none
    | some (res, InferExit.success) =>
      match runConfigs cfg url modelName start rest with
      | none => none
      | some evs =>
        some (Event.benchmark modelName ic ::
          Event.write (applyPs res env.psAfter) :: evs)
    | some (res, InferExit.exhausted e) =>
      some [Event.benchmark modelName ic,
        Event.write (applyPs { res with Error := e } env.psAfter)]
    | some (res, InferExit.aborted r) =>
      some [Event.benchmark modelName ic,
        Event.write (applyPs { res with Error := r } env.psAfter)]

/-- Embedding of the per-model body of runForURL: an excluded model produces
exactly one skip notice and nothing else; otherwise the streaming health
check runs, followed by the configuration loop. -/
def runModel (cfg : Config) (url modelName : String) (start : Int)
    (envs : List CfgRunEnv) : Option (List Event) :=
  match findExclusion cfg.Exclude modelName with
  | some ex => some [Event.skip modelName ex]
  | none =>
    match runConfigs cfg url modelName start (cfg.InferConfigs.zip envs) with
    | none => none
    | some evs => some (Event.healthCheck modelName :: evs)

/-- Embedding of the execution phase of runForURL over the resolved model
list for one target, one environment per model. -/
def runForURL (cfg : Config) (url : String) (start : Int) :
    List String → List (List CfgRunEnv) → Option (List Event)
  | [], _ => some []
  | _ :: _, [] => none
  | m :: ms, env :: envRest =>
    match runModel cfg url m start env, runForURL cfg url start ms envRest with
    | some evs, some rest => some (evs ++ rest)
    | _, _ => none

/-! ## Fleet scheduler -/

/-- Worker-pool sizing in Run: the configured concurrency clamped to 1 from
below and to the number of targets from above. -/
def poolSize (concurrency numTargets : Int) : Int :=
  let c := if concurrency ≤ 0 then 1 else concurrency
  if c > numTargets then numTargets else c

/-- State of the worker pool: targets not yet taken from the channel, the
target currently held by each worker (none when idle), and finished
targets. -/
structure SchedState where
  pending : List String
  workers : List (Option String)
  finished : List String
deriving Repr

/-- Transitions of the worker pool: an idle worker takes the next target
from the channel, or a busy worker finishes its target.  Workers are never
created or destroyed, and a worker holds at most one target. -/
inductive SchedStep : SchedState → SchedState → Prop where
  | assign (u : String) (rest : List String) (ws : List (Option String))
      (fin : List String) (i : Nat) (hi : i < ws.length)
      (hidle : ws.get ⟨i, hi⟩ = none) :
      SchedStep ⟨u :: rest, ws, fin⟩ ⟨rest, ws.set i (some u), fin⟩
  | finish (p : List String) (ws : List (Option String))
      (fin : List String) (i : Nat) (hi : i < ws.length) (u : String)
      (hbusy : ws.get ⟨i, hi⟩ = some u) :
      SchedStep ⟨p, ws, fin⟩ ⟨p, ws.set i none, u :: fin⟩

/-- Reachability along scheduler transitions. -/
inductive SchedReach : SchedState → SchedState → Prop where
  | refl (s : SchedState) : SchedReach s s
  | step (s t u : SchedState) : SchedReach s t → SchedStep t u →
      SchedReach s u

/-- Initial pool state of Run: every target queued in the channel and k idle
workers. -/
def initState (k : Nat) (urls : List String) : SchedState :=
  ⟨urls, List.replicate k none, []⟩

/-- Targets being processed at some instant: the targets currently held by
busy workers. -/
def activeTargets (s : SchedState) : List String :=
  s.workers.filterMap id

/-! ## Helper lemmas -/

theorem inferLoop_exhausted_shape (m u : String) (c : InferCfg) (st : Int) :
    ∀ (outs : List InferOutcome) (lastErr : Option String) (res : Result)
      (e : String),
      inferLoop m u c st lastErr outs = some (res, InferExit.exhausted e) →
      res = exhaustedResult m u c st e := by
  intro outs
  induction outs with
  | nil =>
    intro lastErr res e h
    cases lastErr with
    | none => simp [inferLoop] at h
    | some e2 =>
      simp only [inferLoop, Option.some.injEq, Prod.mk.injEq,
        InferExit.exhausted.injEq] at h
      obtain ⟨h1, h2⟩ := h
      rw [← h1, h2]
  | cons o rest ih =>
    intro lastErr res e h
    cases o with
    | doErr msg pending =>
      cases pending with
      | some r => simp [inferLoop] at h
      | none =>
        simp only [inferLoop] at h
        exact ih _ res e h
    | badStatus status body =>
      simp only [inferLoop] at h
      exact ih _ res e h
    | readErr msg =>
      simp only [inferLoop] at h
      exact ih _ res e h
    | badJSON msg bodyStr =>
      simp only [inferLoop] at h
      exact ih _ res e h
    | apiErr msg =>
      simp only [inferLoop] at h
      exact ih _ res e h
    | success data elapsed => simp [inferLoop] at h

theorem inferLoop_aborted_shape (m u : String) (c : InferCfg) (st : Int) :
    ∀ (outs : List InferOutcome) (lastErr : Option String) (res : Result)
      (r : String),
      inferLoop m u c st lastErr outs = some (res, InferExit.aborted r) →
      res = ({} : Result) := by
  intro outs
  induction outs with
  | nil =>
    intro lastErr res r h
    cases lastErr with
    | none => simp [inferLoop] at h
    | some e2 => simp [inferLoop] at h
  | cons o rest ih =>
    intro lastErr res r h
    cases o with
    | doErr msg pending =>
      cases pending with
      | some r2 =>
        simp only [inferLoop, Option.some.injEq, Prod.mk.injEq] at h
        exact h.1.symm
      | none =>
        simp only [inferLoop] at h
        exact ih _ res r h
    | badStatus status body =>
      simp only [inferLoop] at h
      exact ih _ res r h
    | readErr msg =>
      simp only [inferLoop] at h
      exact ih _ res r h
    | badJSON msg bodyStr =>
      simp only [inferLoop] at h
      exact ih _ res r h
    | apiErr msg =>
      simp only [inferLoop] at h
      exact ih _ res r h
    | success data elapsed => simp [inferLoop] at h

theorem inferLoop_success_shape (m u : String) (c : InferCfg) (st : Int) :
    ∀ (outs : List InferOutcome) (lastErr : Option String) (res : Result),
      inferLoop m u c st lastErr outs = some (res, InferExit.success) →
      ∃ data elapsed, InferOutcome.success data elapsed ∈ outs ∧
        res = successResult m u c st data elapsed := by
  intro outs
  induction outs with
  | nil =>
    intro lastErr res h
    cases lastErr with
    | none => simp [inferLoop] at h
    | some e2 => simp [inferLoop] at h
  | cons o rest ih =>
    intro lastErr res h
    cases o with
    | doErr msg pending =>
      cases pending with
      | some r2 => simp [inferLoop] at h
      | none =>
        simp only [inferLoop] at h
        obtain ⟨d, el, hm, he⟩ := ih _ res h
        exact ⟨d, el, List.mem_cons_of_mem _ hm, he⟩
    | badStatus status body =>
      simp only [inferLoop] at h
      obtain ⟨d, el, hm, he⟩ := ih _ res h
      exact ⟨d, el, List.mem_cons_of_mem _ hm, he⟩
    | readErr msg =>
      simp only [inferLoop] at h
      obtain ⟨d, el, hm, he⟩ := ih _ res h
      exact ⟨d, el, List.mem_cons_of_mem _ hm, he⟩
    | badJSON msg bodyStr =>
      simp only [inferLoop] at h
      obtain ⟨d, el, hm, he⟩ := ih _ res h
      exact ⟨d, el, List.mem_cons_of_mem _ hm, he⟩
    | apiErr msg =>
      simp only [inferLoop] at h
      obtain ⟨d, el, hm, he⟩ := ih _ res h
      exact ⟨d, el, List.mem_cons_of_mem _ hm, he⟩
    | success data elapsed =>
      simp only [inferLoop, Option.some.injEq, Prod.mk.injEq] at h
      exact ⟨data, elapsed, List.mem_cons_self _ _, h.1.symm⟩

theorem find?_isSome_iff (l : List String) (p : String → Bool) :
    (l.find? p).isSome = true ↔ ∃ x ∈ l, p x = true := by
  induction l with
  | nil => simp
  | cons a t ih =>
    by_cases h : p a
    · simp [List.find?, h]
    · simp [List.find?, h, ih]

theorem filterMap_id_set_some (ws : List (Option String)) :
    ∀ (i : Nat) (hi : i < ws.length) (v : String),
      ws.get ⟨i, hi⟩ = none →
      List.Perm ((ws.set i (some v)).filterMap id) (v :: ws.filterMap id) := by
  induction ws with
  | nil => intro i hi; simp at hi
  | cons w t ih =>
    intro i hi v hget
    cases i with
    | zero =>
      simp only [List.get] at hget
      subst hget
      simp only [List.set, List.filterMap_cons]
      exact List.Perm.refl _
    | succ j =>
      have hj : j < t.length := by simpa using hi
      have hget2 : t.get ⟨j, hj⟩ = none := by simpa using hget
      have h2 := ih j hj v hget2
      cases w with
      | none =>
        simpa only [List.set, List.filterMap_cons] using h2
      | some a =>
        simp only [List.set, List.filterMap_cons, id]
        exact (h2.cons a).trans (List.Perm.swap v a _)

theorem filterMap_id_set_none (ws : List (Option String)) :
    ∀ (i : Nat) (hi : i < ws.length) (u : String),
      ws.get ⟨i, hi⟩ = some u →
      List.Perm (ws.filterMap id) (u :: (ws.set i none).filterMap id) := by
  induction ws with
  | nil => intro i hi; simp at hi
  | cons w t ih =>
    intro i hi u hget
    cases i with
    | zero =>
      simp only [List.get] at hget
      subst hget
      simp only [List.set, List.filterMap_cons]
      exact List.Perm.refl _
    | succ j =>
      have hj : j < t.length := by simpa using hi
      have hget2 : t.get ⟨j, hj⟩ = some u := by simpa using hget
      have h2 := ih j hj u hget2
      cases w with
      | none =>
        simpa only [List.set, List.filterMap_cons] using h2
      | some a =>
        simp only [List.set, List.filterMap_cons, id]
        exact (h2.cons a).trans (List.Perm.swap u a _)

/-- Multiset of targets across the three locations of the pool state. -/
def occ (s : SchedState) : Multiset String :=
  (s.pending : Multiset String) + (activeTargets s : Multiset String) +
    (s.finished : Multiset String)

theorem schedStep_occ (s t : SchedState) (h : SchedStep s t) :
    occ t = occ s ∧ t.workers.length = s.workers.length := by
  cases h with
  | assign u rest ws fin i hi hidle =>
    refine ⟨?_, by simp⟩
    have hp := filterMap_id_set_some ws i hi u hidle
    have hm : ((ws.set i (some u)).filterMap id : Multiset String) =
        (↑(u :: ws.filterMap id) : Multiset String) :=
      Multiset.coe_eq_coe.mpr hp
    simp only [occ, activeTargets, hm, ← Multiset.cons_coe]
    rw [← Multiset.singleton_add, ← Multiset.singleton_add]
    abel
  | finish p ws fin i hi u hbusy =>
    refine ⟨?_, by simp⟩
    have hp := filterMap_id_set_none ws i hi u hbusy
    have hm : ((ws.filterMap id : List String) : Multiset String) =
        (↑(u :: (ws.set i none).filterMap id) : Multiset String) :=
      Multiset.coe_eq_coe.mpr hp
    simp only [occ, activeTargets, hm, ← Multiset.cons_coe]
    rw [← Multiset.singleton_add, ← Multiset.singleton_add]
    abel

theorem filterMap_id_replicate_none (k : Nat) :
    (List.replicate k (none : Option String)).filterMap id = [] := by
  induction k with
  | zero => rfl
  | succ n ih => simp [List.replicate, List.filterMap_cons, ih]

theorem sched_invariant (k : Nat) (urls : List String) (s : SchedState)
    (h : SchedReach (initState k urls) s) :
    occ s = (urls : Multiset String) ∧ s.workers.length = k := by
  induction h with
  | refl =>
    constructor
    · simp [occ, initState, activeTargets, filterMap_id_replicate_none]
    · simp [initState]
  | step t0 u0 _ hstep ih =>
    obtain ⟨h1, h2⟩ := schedStep_occ t0 u0 hstep
    exact ⟨h1.trans ih.1, h2.trans ih.2⟩

/-! ## Claim theorems -/

/-- C1: a delivered guard abort ends the attempt at once.  A pending abort
observed at the top-of-loop check of StreamInference returns the abort
reason with no request issued; a Client.Do failure with the abort pending
returns the abort reason with no further retry regardless of remaining
budget; the non-streaming Inference loop likewise returns the abort reason
verbatim together with the aborted exit.  In all three cases the returned
error is exactly the monitor reason, never the network-error
classification. -/
theorem guard_abort_terminates_attempt (lastErr : Option String)
    (r msg : String) (it : StreamIter) (rest : List StreamIter)
    (m u : String) (c : InferCfg) (start : Int)
    (outs : List InferOutcome) :
    streamLoop (some r) lastErr (it :: rest) = (some r, 0) ∧
    streamLoop none lastErr
      ({ fireTop := none, fireDo := some r,
         doResult := Except.error msg } :: rest) = (some r, 1) ∧
    inferLoop m u c start lastErr
      (InferOutcome.doErr msg (some r) :: outs) =
      some (({} : Result), InferExit.aborted r) :=
  ⟨rfl, rfl, rfl⟩

/-- C2: the stream reader returns true exactly when some scanned line is a
chunk with done = true before the body closes; an undecodable line is
skipped without surfacing a decode error (dropping it never changes the
outcome), and running out of input — premature closure or a scanner
error — yields false. -/
theorem stream_reader_done_iff (lines : List StreamLine) (e : ScanEnd) :
    (processStream lines e = true ↔
      ∃ r, StreamLine.chunk r true ∈ lines) ∧
    processStream (StreamLine.garbage :: lines) e = processStream lines e ∧
    processStream [] e = false := by
  refine ⟨?_, rfl, by cases e <;> rfl⟩
  induction lines with
  | nil => cases e <;> simp [processStream]
  | cons l rest ih =>
    cases l with
    | empty => simpa [processStream] using ih
    | garbage => simpa [processStream] using ih
    | chunk resp done =>
      cases done with
      | false => simpa [processStream] using ih
      | true =>
        simp only [processStream, if_pos rfl]
        exact ⟨fun _ => ⟨resp, List.mem_cons_self _ _⟩, fun _ => rfl⟩

/-- C4: the monitor tick decision.  A failed poll or a not-yet-resident
model (size 0) keeps polling; a resident model fully in slow memory while
cpu_only_allowed is false aborts with the CPU reason; a resident model with
fast-memory bytes strictly below total size while gpu_only is set aborts;
in every remaining situation the monitor keeps polling. -/
theorem monitor_tick_policy (cfg : Config) (size vram : Int) :
    monitorStep cfg PollResult.pollErr = MonitorAction.keepPolling ∧
    monitorStep cfg (PollResult.ok 0 vram) = MonitorAction.keepPolling ∧
    (size ≠ 0 → vram = 0 → cfg.CPUOnlyAllowed = false →
      monitorStep cfg (PollResult.ok size vram) =
        MonitorAction.abortAttempt cpuAbortMsg) ∧
    (size ≠ 0 → vram < size → cfg.GPUOnly = true →
      ∃ reason, monitorStep cfg (PollResult.ok size vram) =
        MonitorAction.abortAttempt reason) ∧
    (size ≠ 0 → ¬(vram = 0 ∧ cfg.CPUOnlyAllowed = false) →
      ¬(vram < size ∧ cfg.GPUOnly = true) →
      monitorStep cfg (PollResult.ok size vram) =
        MonitorAction.keepPolling) := by
  refine ⟨rfl, by simp [monitorStep], ?_, ?_, ?_⟩
  · intro h1 h2 h3
    have hs : (size == 0) = false := by simp [h1]
    subst h2
    simp [monitorStep, hs, h3]
  · intro h1 h2 h3
    have hs : (size == 0) = false := by simp [h1]
    by_cases hc : (vram == 0 && !cfg.CPUOnlyAllowed) = true
    · exact ⟨cpuAbortMsg, by simp [monitorStep, hs, hc]⟩
    · rw [Bool.not_eq_true] at hc
      exact ⟨gpuAbortMsg, by simp [monitorStep, hs, hc, h2, h3]⟩
  · intro h1 h2 h3
    have hs : (size == 0) = false := by simp [h1]
    have hc : (vram == 0 && !cfg.CPUOnlyAllowed) = false := by
      by_cases hv : vram = 0
      · have ha : cfg.CPUOnlyAllowed = true := by
          by_contra hfalse
          exact h2 ⟨hv, by simpa using hfalse⟩
        simp [hv, ha]
      · simp [hv]
    have hg : (decide (vram < size) && cfg.GPUOnly) = false := by
      by_cases hv : vram < size
      · have ha : cfg.GPUOnly = false := by
          by_contra hfalse
          exact h3 ⟨hv, by simpa using hfalse⟩
        simp [ha]
      · simp [hv]
    simp [monitorStep, hs, hc, hg]

/-- Witness for monitor_tick_policy: the placement sample size 1000 with
size_vram 0 under disallowed slow-memory execution aborts with the CPU
reason. -/
theorem monitor_tick_policy_witness :
    monitorStep { CPUOnlyAllowed := false } (PollResult.ok 1000 0) =
      MonitorAction.abortAttempt cpuAbortMsg :=
  (monitor_tick_policy { CPUOnlyAllowed := false } 1000 0).2.2.1
    (by decide) rfl rfl

/-- C6: the per-attempt context deadline, shared by the request and the
guard monitor launched under the same context, equals the configured load
timeout plus the configured stream (generation) timeout on both the
streaming and the non-streaming path. -/
theorem attempt_deadline_eq (cfg : Config) :
    streamAttemptDeadline cfg = cfg.LoadTimeout + cfg.StreamTimeout ∧
    inferAttemptDeadline cfg = cfg.LoadTimeout + cfg.StreamTimeout ∧
    streamAttemptDeadline cfg = inferAttemptDeadline cfg :=
  ⟨rfl, rfl, rfl⟩

/-- C10: TokensReturned is defined as the piece count of
strings.Split(response, " "), which is at least 1 even for the empty
response, so on every successful non-streaming attempt the returned Result
has TokensReturned equal to that piece count and never 0. -/
theorem tokens_returned_positive (cfg : Config) (m u : String)
    (ic : InferCfg) (start : Int) (outs : List InferOutcome)
    (res : Result) :
    (∀ s : String,
      tokensReturned s = ((splitGo ' ' s.data).length : Int) ∧
      1 ≤ tokensReturned s) ∧
    (Inference cfg m u ic start outs = some (res, InferExit.success) →
      res.TokensReturned = tokensReturned res.Response ∧
      1 ≤ res.TokensReturned ∧ res.TokensReturned ≠ 0) := by
  constructor
  · intro s
    exact ⟨rfl, tokensReturned_ge_one s⟩
  · intro h
    obtain ⟨d, el, _, he⟩ := inferLoop_success_shape m u ic start _ _ _ h
    subst he
    refine ⟨rfl, tokensReturned_ge_one _, ?_⟩
    have hge := tokensReturned_ge_one d.Response
    have hproj : (successResult m u ic start d el).TokensReturned =
        tokensReturned d.Response := rfl
    omega

/-- Witness for tokens_returned_positive: a one-iteration successful
attempt with an empty response text yields TokensReturned equal to the
split length and positive. -/
theorem tokens_returned_positive_witness :
    (successResult "m" "u" [] 0 {} 5).TokensReturned =
      tokensReturned (successResult "m" "u" [] 0 {} 5).Response ∧
    1 ≤ (successResult "m" "u" [] 0 {} 5).TokensReturned ∧
    (successResult "m" "u" [] 0 {} 5).TokensReturned ≠ 0 :=
  (tokens_returned_positive { MaxRetries := 1 } "m" "u" [] 0
    [InferOutcome.success {} 5] (successResult "m" "u" [] 0 {} 5)).2 rfl

/-- C8: a model is skipped — one skip notice, no health check, no
benchmark — exactly when its name contains, case-insensitively, some
configured exclusion substring (the notice names the first matching
entry); otherwise the health check event comes first, followed by the
configuration loop. -/
theorem excluded_model_skip_iff (cfg : Config) (url m : String)
    (start : Int) (envs : List CfgRunEnv) :
    ((∃ ex ∈ cfg.Exclude, containsFold m ex = true) ↔
      (findExclusion cfg.Exclude m).isSome = true) ∧
    (∀ ex, findExclusion cfg.Exclude m = some ex →
      runModel cfg url m start envs = some [Event.skip m ex]) ∧
    (findExclusion cfg.Exclude m = none →
      runModel cfg url m start envs =
        (runConfigs cfg url m start (cfg.InferConfigs.zip envs)).map
          (fun evs => Event.healthCheck m :: evs)) := by
  refine ⟨(find?_isSome_iff cfg.Exclude (fun ex => containsFold m ex)).symm,
    ?_, ?_⟩
  · intro ex h
    simp [runModel, h]
  · intro h
    simp only [runModel, h]
    cases runConfigs cfg url m start (cfg.InferConfigs.zip envs) <;> rfl

/-- Witness for excluded_model_skip_iff: with exclusion list [embed], the
model a:embed yields exactly one skip event while b:chat proceeds to its
health check. -/
theorem excluded_model_skip_iff_witness :
    runModel { Exclude := ["embed"] } "u" "a:embed" 0 [] =
      some [Event.skip "a:embed" "embed"] ∧
    runModel { Exclude := ["embed"] } "u" "b:chat" 0 [] =
      some [Event.healthCheck "b:chat"] :=
  ⟨(excluded_model_skip_iff { Exclude := ["embed"] } "u" "a:embed" 0
      []).2.1 "embed" (by decide),
   ((excluded_model_skip_iff { Exclude := ["embed"] } "u" "b:chat" 0
      []).2.2 (by decide)).trans rfl⟩

/-- C5: when the inference attempt for an option set ends in error —
retries exhausted or guard abort — the runner emits exactly one failed
Result write for that option set and abandons the remaining option sets of
that model, while the events of the models after it are appended
unchanged (and each target runs through its own independent runForURL
call). -/
theorem failed_config_fails_fast (cfg : Config) (url m : String)
    (start : Int) (ic : InferCfg) (env : CfgRunEnv)
    (rest : List (InferCfg × CfgRunEnv)) (res : Result) (e : String)
    (ms : List String) (envss : List (List CfgRunEnv))
    (menv : List CfgRunEnv) (evs : List Event) :
    (Inference cfg m url ic start env.outcomes =
        some (res, InferExit.exhausted e) →
      runConfigs cfg url m start ((ic, env) :: rest) =
        some [Event.benchmark m ic,
          Event.write (applyPs { res with Error := e } env.psAfter)]) ∧
    (Inference cfg m url ic start env.outcomes =
        some (res, InferExit.aborted e) →
      runConfigs cfg url m start ((ic, env) :: rest) =
        some [Event.benchmark m ic,
          Event.write (applyPs { res with Error := e } env.psAfter)]) ∧
    (runModel cfg url m start menv = some evs →
      runForURL cfg url start (m :: ms) (menv :: envss) =
        (runForURL cfg url start ms envss).map (fun r2 => evs ++ r2)) := by
  refine ⟨?_, ?_, ?_⟩
  · intro h
    simp [runConfigs, h]
  · intro h
    simp [runConfigs, h]
  · intro h
    simp only [runForURL, h]
    cases runForURL cfg url start ms envss <;> rfl

/-- Witness for failed_config_fails_fast: a single-retry attempt failing
with a connection error produces one benchmark event and one failed write,
and a model result list composes unchanged after a skip. -/
theorem failed_config_fails_fast_witness :
    runConfigs { MaxRetries := 1 } "u" "m" 0
      [([], { outcomes := [InferOutcome.doErr "boom" none],
              psAfter := Except.error "" })] =
      some [Event.benchmark "m" [],
        Event.write (applyPs
          { exhaustedResult "m" "u" [] 0 (classifyNetErr "boom") with
            Error := classifyNetErr "boom" } (Except.error ""))] :=
  (failed_config_fails_fast { MaxRetries := 1 } "u" "m" 0 []
    { outcomes := [InferOutcome.doErr "boom" none],
      psAfter := Except.error "" } []
    (exhaustedResult "m" "u" [] 0 (classifyNetErr "boom"))
    (classifyNetErr "boom") [] [] [] []).1 rfl

/-- C3 counterexample: a single-retry attempt failing with a connection
error while the model is still resident (placement poll returns size 1000,
size_vram 500) writes a Result whose error text is non-empty and whose
memory and placement fields are NOT zero, refuting the claim that every
error Result has all performance and placement figures zero. -/
theorem error_result_memory_cex :
    runConfigs { MaxRetries := 1 } "u" "m" 7
      [([], { outcomes := [InferOutcome.doErr "boom" none],
              psAfter := Except.ok (1000, 500) })] =
      some [Event.benchmark "m" [],
        Event.write (applyPs
          { exhaustedResult "m" "u" [] 7 (classifyNetErr "boom") with
            Error := classifyNetErr "boom" } (Except.ok (1000, 500)))] ∧
    (applyPs { exhaustedResult "m" "u" [] 7 (classifyNetErr "boom") with
        Error := classifyNetErr "boom" } (Except.ok (1000, 500))).Error ≠
      "" ∧
    (applyPs { exhaustedResult "m" "u" [] 7 (classifyNetErr "boom") with
        Error := classifyNetErr "boom" } (Except.ok (1000, 500))).MemoryUsage
      = 1000 ∧
    (applyPs { exhaustedResult "m" "u" [] 7 (classifyNetErr "boom") with
        Error := classifyNetErr "boom" } (Except.ok (1000, 500))).VRAMUsage
      = 500 := by
  refine ⟨rfl, by decide, by decide, by decide⟩

/-- C3 amended: every Result written after an attempt that exhausts the
retry budget is unique for its option set and has zero durations and token
counts, with only the identity fields, the error text, and — when the
post-failure placement poll succeeds on a resident model — the memory and
placement fields populated. -/
theorem error_result_zero_perf (cfg : Config) (url m : String)
    (start : Int) (ic : InferCfg) (outs : List InferOutcome)
    (ps : Except String (Int × Int)) (rest : List (InferCfg × CfgRunEnv))
    (res : Result) (e : String) :
    Inference cfg m url ic start outs = some (res, InferExit.exhausted e) →
    runConfigs cfg url m start
        ((ic, { outcomes := outs, psAfter := ps }) :: rest) =
      some [Event.benchmark m ic,
        Event.write (applyPs { res with Error := e } ps)] ∧
    (applyPs { res with Error := e } ps).Error = e ∧
    (applyPs { res with Error := e } ps).Duration = 0 ∧
    (applyPs { res with Error := e } ps).TotalDuration = 0 ∧
    (applyPs { res with Error := e } ps).LoadDuration = 0 ∧
    (applyPs { res with Error := e } ps).PromptEvalDuration = 0 ∧
    (applyPs { res with Error := e } ps).EvalDuration = 0 ∧
    (applyPs { res with Error := e } ps).PromptEvalCount = 0 ∧
    (applyPs { res with Error := e } ps).EvalCount = 0 ∧
    (applyPs { res with Error := e } ps).TokensGenerated = 0 ∧
    (applyPs { res with Error := e } ps).TokensReturned = 0 := by
  intro h
  have hres := inferLoop_exhausted_shape m url ic start _ _ _ _ h
  subst hres
  refine ⟨by simp [runConfigs, h], ?_⟩
  cases ps with
  | error msg =>
    exact ⟨rfl, rfl, rfl, rfl, rfl, rfl, rfl, rfl, rfl, rfl⟩
  | ok p =>
    obtain ⟨size, vram⟩ := p
    by_cases h0 : 0 < size <;>
      simp [applyPs, h0, exhaustedResult]

/-- Witness for error_result_zero_perf at a two-retry attempt ending with
a body read failure, with the model still resident afterwards. -/
theorem error_result_zero_perf_witness :
    runConfigs { MaxRetries := 2 } "u2" "m2" 0
        [([], { outcomes := [InferOutcome.badStatus "500" "oops",
                             InferOutcome.readErr "eof"],
                psAfter := Except.ok (2000, 1000) })] =
      some [Event.benchmark "m2" [],
        Event.write (applyPs
          { exhaustedResult "m2" "u2" [] 0
              ("failed to read response body: " ++ "eof") with
            Error := "failed to read response body: " ++ "eof" }
          (Except.ok (2000, 1000)))] ∧
    (applyPs
      { exhaustedResult "m2" "u2" [] 0
          ("failed to read response body: " ++ "eof") with
        Error := "failed to read response body: " ++ "eof" }
      (Except.ok (2000, 1000))).Duration = 0 := by
  have h := error_result_zero_perf { MaxRetries := 2 } "u2" "m2" 0 []
    [InferOutcome.badStatus "500" "oops", InferOutcome.readErr "eof"]
    (Except.ok (2000, 1000)) []
    (exhaustedResult "m2" "u2" [] 0
      ("failed to read response body: " ++ "eof"))
    ("failed to read response body: " ++ "eof") rfl
  exact ⟨h.1, h.2.2.1⟩

/-- C9 counterexample: a guard-aborted attempt returns the empty Result
literal, so the Result written for it carries an empty model name, URL and
config instead of the identity of the attempt, refuting the claim that
every Result handed to the sink carries those fields. -/
theorem abort_result_identity_cex :
    runConfigs { MaxRetries := 1 } "uu" "mm" 0
      [([("num_ctx", 2048)],
        { outcomes := [InferOutcome.doErr "context canceled"
            (some "ABORT: guard")],
          psAfter := Except.error "" })] =
      some [Event.benchmark "mm" [("num_ctx", 2048)],
        Event.write { Error := "ABORT: guard" }] ∧
    ({ Error := "ABORT: guard" } : Result).Model = "" ∧
    ({ Error := "ABORT: guard" } : Result).URL = "" ∧
    ({ Error := "ABORT: guard" } : Result).Config = [] ∧
    ("mm" : String) ≠ "" ∧ ("uu" : String) ≠ "" := by
  refine ⟨rfl, rfl, rfl, rfl, by decide, by decide⟩

/-- C9 amended: Results written for successful and retries-exhausted
attempts carry the model name, target URL and option set of the attempt
(the post-attempt placement capture preserves them); a guard-aborted
attempt instead returns the zero Result, whose identity fields are empty. -/
theorem result_identity_fields (cfg : Config) (m u : String)
    (ic : InferCfg) (start : Int) (outs : List InferOutcome)
    (res : Result) (ex2 : InferExit) (ps : Except String (Int × Int)) :
    Inference cfg m u ic start outs = some (res, ex2) →
    (ex2 = InferExit.success →
      (applyPs res ps).Model = m ∧ (applyPs res ps).URL = u ∧
      (applyPs res ps).Config = ic) ∧
    (∀ e, ex2 = InferExit.exhausted e →
      (applyPs { res with Error := e } ps).Model = m ∧
      (applyPs { res with Error := e } ps).URL = u ∧
      (applyPs { res with Error := e } ps).Config = ic ∧
      (applyPs { res with Error := e } ps).Error = e) ∧
    (∀ r, ex2 = InferExit.aborted r → res = ({} : Result)) := by
  intro h
  refine ⟨?_, ?_, ?_⟩
  · intro hex
    subst hex
    obtain ⟨d, el, _, he⟩ := inferLoop_success_shape m u ic start _ _ _ h
    subst he
    cases ps with
    | error msg => exact ⟨rfl, rfl, rfl⟩
    | ok p =>
      obtain ⟨size, vram⟩ := p
      by_cases h0 : 0 < size <;> simp [applyPs, h0, successResult]
  · intro e hex
    subst hex
    have hres := inferLoop_exhausted_shape m u ic start _ _ _ _ h
    subst hres
    cases ps with
    | error msg => exact ⟨rfl, rfl, rfl, rfl⟩
    | ok p =>
      obtain ⟨size, vram⟩ := p
      by_cases h0 : 0 < size <;> simp [applyPs, h0, exhaustedResult]
  · intro r hex
    subst hex
    exact inferLoop_aborted_shape m u ic start _ _ _ _ h

/-- Witness for result_identity_fields at a concrete exhausted attempt. -/
theorem result_identity_fields_witness :
    (applyPs { exhaustedResult "m3" "u3" [] 0
        (classifyNetErr "down") with Error := classifyNetErr "down" }
      (Except.error "")).Model = "m3" ∧
    (applyPs { exhaustedResult "m3" "u3" [] 0
        (classifyNetErr "down") with Error := classifyNetErr "down" }
      (Except.error "")).URL = "u3" ∧
    (applyPs { exhaustedResult "m3" "u3" [] 0
        (classifyNetErr "down") with Error := classifyNetErr "down" }
      (Except.error "")).Config = [] ∧
    (applyPs { exhaustedResult "m3" "u3" [] 0
        (classifyNetErr "down") with Error := classifyNetErr "down" }
      (Except.error "")).Error = classifyNetErr "down" :=
  ((result_identity_fields { MaxRetries := 1 } "m3" "u3" [] 0
      [InferOutcome.doErr "down" none]
      (exhaustedResult "m3" "u3" [] 0 (classifyNetErr "down"))
      (InferExit.exhausted (classifyNetErr "down"))
      (Except.error "") rfl).2.1 (classifyNetErr "down") rfl)

/-- C7 counterexample: with configured concurrency 0 and zero targets the
pool has zero workers, not one, refuting the blanket claim that the pool
size is 1 whenever the configured concurrency is not positive. -/
theorem pool_size_cex : poolSize 0 0 = 0 ∧ poolSize 0 0 ≠ 1 := by decide

/-- C7 amended: the worker pool is sized min(c1, number of targets) where
c1 is the configured concurrency clamped below to 1 — in particular size 1
whenever the configured concurrency is not positive and there is at least
one target — and in every reachable pool state the worker count stays
fixed, at most pool-size targets are being processed simultaneously, and
(for distinct targets) no target is held by two workers at once. -/
theorem pool_bound_model (c n : Int) (k : Nat) (urls : List String)
    (s : SchedState) :
    poolSize c n = min (if c ≤ 0 then 1 else c) n ∧
    (c ≤ 0 → 1 ≤ n → poolSize c n = 1) ∧
    (SchedReach (initState k urls) s →
      s.workers.length = k ∧ (activeTargets s).length ≤ k) ∧
    (urls.Nodup → SchedReach (initState k urls) s →
      ∀ u2, (activeTargets s).count u2 ≤ 1) := by
  have hps : poolSize c n =
      if (if c ≤ 0 then 1 else c) > n then n else (if c ≤ 0 then 1 else c) :=
    rfl
  refine ⟨?_, ?_, ?_, ?_⟩
  · rw [hps]
    split_ifs <;> omega
  · intro h1 h2
    rw [hps]
    split_ifs <;> omega
  · intro h
    obtain ⟨_, hlen⟩ := sched_invariant k urls s h
    refine ⟨hlen, ?_⟩
    have hle : (activeTargets s).length ≤ s.workers.length :=
      List.length_filterMap_le _ _
    omega
  · intro hnd h u2
    obtain ⟨hocc, _⟩ := sched_invariant k urls s h
    have hcnt := congrArg (Multiset.count u2) hocc
    simp only [occ, Multiset.count_add, Multiset.coe_count] at hcnt
    have hu : urls.count u2 ≤ 1 := List.nodup_iff_count_le_one.mp hnd u2
    omega

/-- Witness for pool_bound_model: nonpositive concurrency with three
targets gives pool size 1, and the initial one-worker state is within the
bound. -/
theorem pool_bound_model_witness :
    poolSize 0 3 = 1 ∧
    (initState 1 ["a"]).workers.length = 1 ∧
    (activeTargets (initState 1 ["a"])).length ≤ 1 :=
  ⟨(pool_bound_model 0 3 1 ["a"] (initState 1 ["a"])).2.1 (by decide)
      (by decide),
   ((pool_bound_model 0 3 1 ["a"] (initState 1 ["a"])).2.2.1
      (SchedReach.refl _)).1,
   ((pool_bound_model 0 3 1 ["a"] (initState 1 ["a"])).2.2.1
      (SchedReach.refl _)).2⟩

end ForestRunner
